import Mathlib

/-!
Verification development for the mobile editor host (ComponentView) and the
bottom-sheet action widget (BottomSheet.tsx) of a mobile note-taking app.

The definitions below are a shallow embedding of the TypeScript source:
pure computations become Lean functions, effectful steps (network fetch,
filesystem operations, persistence writes, animation targets) become explicit
effect traces and state transformers. All definitions are executable.
-/

namespace Mobile

/-- Mobile platform, `Platform.OS` in react-native. -/
inductive Platform
  | ios
  | android
  deriving DecidableEq, Repr

/-- Navigation request delivered to `onShouldStartLoadWithRequest`:
the target url and the `navigationType` field (on iOS user clicks carry
`"click"`; Android requests carry no click marker). -/
structure NavRequest where
  url : String
  navigationType : String
  deriving DecidableEq, Repr

/-- Embedding of `onShouldStartLoadWithRequest` (ComponentView, lines 343-365).
`urlState` is the component's `url` state variable (the remote editor url when
set, the empty string otherwise). Returns `true` to let the WebView load the
request inline, `false` to cancel it after opening it externally. -/
def onShouldStartLoadWithRequest (os : Platform) (urlState : String)
    (request : NavRequest) : Bool :=
  !((os == .ios && request.navigationType == "click") ||
    (os == .android && request.url != urlState))

/-- A request is redirected to the external url opener exactly when the handler
returns `false` (the code calls `openUrl` and returns `false` in one branch). -/
def redirected (os : Platform) (urlState : String) (request : NavRequest) : Bool :=
  !(onShouldStartLoadWithRequest os urlState request)

/-- URL actually loaded by the rendering surface: the source uri is
`offlineUrl ? offlineUrl : url` (ComponentView, line 403). -/
def loadedEditorUrl (offlineUrl urlState : String) : String :=
  if offlineUrl != "" then offlineUrl else urlState

/-- Modelled from the spec: the claim's redirect condition, which compares the
request target against the *currently loaded editor URL* (refinement
comparison definition, to be diffed against `redirected`). -/
def specRedirected (os : Platform) (loadedUrl : String) (request : NavRequest) : Bool :=
  (os == .ios && request.navigationType == "click") ||
  (os == .android && request.url != loadedUrl)

/-- Delivery of requests to the handler, per the source comment in
`onShouldStartLoadWithRequest`: on iOS the handler is called for all requests
including the initial editor load; on Android it is not called for the initial
request. -/
def handlerReceivesRequest (os : Platform) (isInitialLoad : Bool) : Bool :=
  os == .ios || !isInitialLoad

/-- Package manifest, the `package_info` of a component descriptor and also the
shape of a fetched `latest_url` manifest. -/
structure PackageInfo where
  identifier : String
  version : String
  download_url : String
  latest_url : Option String
  deriving DecidableEq, Repr

/-- Component descriptor as far as the editor host reads it. -/
structure SNComponent where
  uuid : String
  package_info : PackageInfo
  deriving DecidableEq, Repr

/-- Observable effects of `checkForComponentUpdate`. -/
inductive UpdateEffect
  | networkFetch (url : String)
  | changeAndSaveItem (uuid : String) (newInfo : PackageInfo)
  | logError
  deriving DecidableEq, Repr

/-- Embedding of `checkForComponentUpdate` (ComponentView, lines 52-77).
`isStarted` is `application.isStarted()`; `fetchJson` gives the outcome of
`fetch(latestUrl).then(r => r.json())` (`Except.error` for a network/parse
throw, `Except.ok none` for a null body). Returns the effect trace. -/
def checkForComponentUpdate (isStarted : Bool)
    (fetchJson : String → Except Unit (Option PackageInfo))
    (component : SNComponent) : List UpdateEffect :=
  match component.package_info.latest_url with
  | none => []
  | some latestUrl =>
    if latestUrl == "" then []
    else
      match fetchJson latestUrl with
      | .error _ => [.networkFetch latestUrl, .logError]
      | .ok none => [.networkFetch latestUrl]
      | .ok (some packageInfo) =>
        if packageInfo.version != component.package_info.version && isStarted then
          [.networkFetch latestUrl, .changeAndSaveItem component.uuid packageInfo]
        else
          [.networkFetch latestUrl]

/-- Persistence mutations among the update effects. -/
def isMutation : UpdateEffect → Bool
  | .changeAndSaveItem _ _ => true
  | _ => false

/-- Network calls among the update effects. -/
def isNetworkCall : UpdateEffect → Bool
  | .networkFetch _ => true
  | _ => false

/-- Failure conditions of the offline resolution routine. -/
inductive OfflineError
  | deleteFailed
  | downloadFailed
  | unzipFailed
  | emptyVersionDir
  | missingPackageJson
  | invalidPackageJson
  deriving DecidableEq, Repr

/-- Outcome of one completed run of the `setEditorUrl` effect
(ComponentView, lines 239-277). -/
inductive RenderOutcome
  | alertReinstall
  | setOfflineUrl (u : String)
  | signalLoadError
  | setRemoteUrl (u : String)
  | unmountedNoop
  deriving DecidableEq, Repr

/-- Embedding of `setEditorUrl`: `newUrl` is what
`componentManager.urlForComponent` returned, `offlineResolution` the outcome of
`getOfflineEditorUrl`, `mounted` the still-mounted flag checked after the
suspension point. -/
def setEditorUrl (newUrl : Option String)
    (offlineResolution : Except OfflineError String)
    (offlineOnly : Bool) (mounted : Bool) : RenderOutcome :=
  match newUrl with
  | none => .alertReinstall
  | some u =>
    match offlineResolution with
    | .ok offlineEditorUrl =>
      if mounted then .setOfflineUrl offlineEditorUrl else .unmountedNoop
    | .error _ =>
      if mounted then
        if offlineOnly then .signalLoadError else .setRemoteUrl u
      else .unmountedNoop

/-- Total content height of the bottom sheet: measured title height plus
measured list height (BottomSheet, lines 310-313). -/
def contentHeightOf (titleHeight listHeight : ℚ) : ℚ :=
  titleHeight + listHeight

/-- Embedding of the `snapPoints` memo (BottomSheet, lines 315-323); heights
are modelled as rationals. -/
def snapPoints (screenHeight contentHeight : ℚ) : List ℚ :=
  let maxLimit := (85 / 100) * screenHeight
  if contentHeight = 0 then [1]
  else if contentHeight < maxLimit then [contentHeight] else [maxLimit]

/-- Bottom sheet action descriptor, restricted to what `ActionItem` reads:
whether a `callback` is present and the `dismissSheetOnPress` flag. -/
structure BottomSheetAction where
  key : String
  hasCallback : Bool
  dismissSheetOnPress : Bool
  deriving DecidableEq, Repr

/-- Observable effects of pressing an action item. -/
inductive PressEffect
  | runCallback
  | dismissSheet
  deriving DecidableEq, Repr

/-- Embedding of `ActionItem`'s `onPress` (BottomSheet, lines 203-217):
invoke the callback when present, then dismiss when flagged. -/
def actionItemOnPress (action : BottomSheetAction) : List PressEffect :=
  (if action.hasCallback then [.runCallback] else []) ++
    (if action.dismissSheetOnPress then [.dismissSheet] else [])

/-- Filesystem paths, as lists of segments. -/
abbrev FsPath := List String

/-- File contents, as far as offline resolution inspects them: a zip archive
(the list of entry paths and contents it unpacks to), a parseable json
manifest exposing an optional `sn.main` field, or raw text that `JSON.parse`
rejects. -/
inductive FileContent
  | archive (entries : List (FsPath × FileContent))
  | manifest (snMain : Option String)
  | rawText (s : String)

/-- One stored file. -/
structure FsFile where
  path : FsPath
  content : FileContent

/-- Filesystem state: the list of stored files (directories are implicit). -/
abbrev Fs := List FsFile

/-- Existence check `RNFS.exists`: a path exists when some stored file lies at
it or below it. -/
def fsExists (fs : Fs) (p : FsPath) : Bool :=
  fs.any (fun f => p.isPrefixOf f.path)

/-- Deduplication keeping first occurrences (directory entries are listed
once). -/
def dedupFirst : List FsPath → List FsPath
  | [] => []
  | a :: l => a :: (dedupFirst l).filter (fun b => b ≠ a)

/-- Directory listing `RNFS.readDir`: the full paths of the immediate children
of `d`, in first-occurrence order. -/
def readDir (fs : Fs) (d : FsPath) : List FsPath :=
  dedupFirst (fs.filterMap (fun f =>
    if d.isPrefixOf f.path ∧ d.length < f.path.length then
      some (f.path.take (d.length + 1))
    else none))

/-- Recursive delete `RNFS.unlink`: removes every file at or below `p`. -/
def fsUnlinkOp (fs : Fs) (p : FsPath) : Fs :=
  fs.filter (fun f => !(p.isPrefixOf f.path))

/-- File write (the `RNFS.downloadFile` target): replaces anything at `p`. -/
def fsWrite (fs : Fs) (p : FsPath) (c : FileContent) : Fs :=
  ⟨p, c⟩ :: fs.filter (fun f => !(p.isPrefixOf f.path))

/-- Unzip extraction: place each archive entry below `dest`. -/
def fsExtract (fs : Fs) (dest : FsPath) (entries : List (FsPath × FileContent)) : Fs :=
  entries.map (fun e => FsFile.mk (dest ++ e.1) e.2) ++ fs

/-- File read `RNFS.readFile` (`none` models the throw on a missing file). -/
def readFile (fs : Fs) (p : FsPath) : Option FileContent :=
  (fs.find? (fun f => f.path == p)).map FsFile.content

/-- Events observable during one run of `getOfflineEditorUrl`. -/
inductive Ev
  | checkUpdate
  | setDownloading (b : Bool)
  | downloadEditorStart
  | downloadEditorEnd
  | fsDelete (p : FsPath)
  | netDownload (fromUrl : String) (toFile : FsPath)
  | unzipTo (src dest : FsPath)
  deriving DecidableEq, Repr

/-- Environment of one offline-resolution run: the platform and directory
constants, the outcome of downloading the package archive, and failure
injection for the delete and unzip steps. -/
structure OfflineEnv where
  os : Platform
  externalDirectoryPath : String
  documentDirectoryPath : String
  fetchArchive : Except Unit FileContent
  unlinkFails : Bool
  unzipFails : Bool

/-- Base path choice (ComponentView, lines 172-173). -/
def basePathOf (env : OfflineEnv) : String :=
  if env.os == .android then env.externalDirectoryPath else env.documentDirectoryPath

/-- Temporary archive path `{basePath}/{identifier}.zip`. -/
def downloadPathOf (env : OfflineEnv) (pkg : PackageInfo) : FsPath :=
  [basePathOf env, pkg.identifier ++ ".zip"]

/-- Per-identifier editor directory `{basePath}/editors/{identifier}`. -/
def editorDirOf (env : OfflineEnv) (pkg : PackageInfo) : FsPath :=
  [basePathOf env, "editors", pkg.identifier]

/-- Version directory `{basePath}/editors/{identifier}/{version}`. -/
def versionDirOf (env : OfflineEnv) (pkg : PackageInfo) : FsPath :=
  editorDirOf env pkg ++ [pkg.version]

/-- Rendering of a path as a string url component. -/
def pathString (p : FsPath) : String :=
  String.intercalate "/" p

/-- Manifest parse: `JSON.parse` followed by the `packageJson?.sn?.main`
access; `none` models a parse throw. -/
def parseManifest : FileContent → Option (Option String)
  | .manifest snMain => some snMain
  | _ => none

/-- Main file name `packageJson?.sn?.main || 'index.html'` (the JS `||`
also replaces an empty override with the default). -/
def mainFileNameOf : Option String → String
  | some m => if m == "" then "index.html" else m
  | none => "index.html"

/-- Main-file resolution after the version directory is populated
(ComponentView, lines 210-222): read the single top-level entry, parse its
`package.json`, locate the main file, and produce a `file://` url when it
exists, the empty string otherwise. -/
def resolveMainFile (fs : Fs) (versionDir : FsPath) : Except OfflineError String :=
  match readDir fs versionDir with
  | [] => .error .emptyVersionDir
  | pkgDir :: _ =>
    match readFile fs (pkgDir ++ ["package.json"]) with
    | none => .error .missingPackageJson
    | some c =>
      match parseManifest c with
      | none => .error .invalidPackageJson
      | some snMain =>
        let mainFilePath := pkgDir ++ [mainFileNameOf snMain]
        if fsExists fs mainFilePath then .ok ("file://" ++ pathString mainFilePath)
        else .ok ""

/-- Try block of the download branch (ComponentView, lines 193-203): delete
any previous versions, download the archive, unzip it into the version
directory, delete the zip. Returns the outcome, the filesystem afterwards and
the effect trace of the block. -/
def downloadAndUnpack (env : OfflineEnv) (fs : Fs)
    (editorDir versionDir downloadPath : FsPath) (downloadUrl : String) :
    Except OfflineError Unit × Fs × List Ev :=
  match
    (if fsExists fs editorDir then
      if env.unlinkFails then
        ((Except.error OfflineError.deleteFailed : Except OfflineError Unit),
          fs, [Ev.fsDelete editorDir])
      else (.ok (), fsUnlinkOp fs editorDir, [Ev.fsDelete editorDir])
    else (.ok (), fs, []))
  with
  | (.error e, fs1, tr1) => (.error e, fs1, tr1)
  | (.ok _, fs1, tr1) =>
    match env.fetchArchive with
    | .error _ =>
      (.error .downloadFailed, fs1, tr1 ++ [.netDownload downloadUrl downloadPath])
    | .ok content =>
      let fs2 := fsWrite fs1 downloadPath content
      let tr2 := tr1 ++ [Ev.netDownload downloadUrl downloadPath]
      if env.unzipFails then
        (.error .unzipFailed, fs2, tr2 ++ [.unzipTo downloadPath versionDir])
      else
        match content with
        | .archive entries =>
          let fs3 := fsExtract fs2 versionDir entries
          (.ok (), fsUnlinkOp fs3 downloadPath,
            tr2 ++ [.unzipTo downloadPath versionDir, .fsDelete downloadPath])
        | _ => (.error .unzipFailed, fs2, tr2 ++ [.unzipTo downloadPath versionDir])

/-- Embedding of `getOfflineEditorUrl` (ComponentView, lines 162-229): given
the environment, the descriptor's package info, the `downloadingOfflineEditor`
flag and the filesystem, produce the resolution outcome, the final filesystem
and the effect trace. The `try/finally` of the source emits
`onDownloadEditorEnd` and resets the flag on both outcomes of the block
before the error, if any, propagates. -/
def getOfflineEditorUrl (env : OfflineEnv) (pkg : PackageInfo)
    (downloadingOfflineEditor : Bool) (fs0 : Fs) :
    Except OfflineError String × Fs × List Ev :=
  let downloadPath := downloadPathOf env pkg
  let editorDir := editorDirOf env pkg
  let versionDir := versionDirOf env pkg
  let shouldDownload :=
    !downloadingOfflineEditor &&
      (!(fsExists fs0 versionDir) || (readDir fs0 versionDir).length == 0)
  if shouldDownload then
    match downloadAndUnpack env fs0 editorDir versionDir downloadPath pkg.download_url with
    | (res, fs1, tr) =>
      let trace := [Ev.checkUpdate, Ev.setDownloading true, Ev.downloadEditorStart] ++ tr ++
        [Ev.downloadEditorEnd, Ev.setDownloading false]
      match res with
      | .error e => (.error e, fs1, trace)
      | .ok _ => (resolveMainFile fs1 versionDir, fs1, trace)
  else
    (resolveMainFile fs0 versionDir, fs0, [Ev.checkUpdate])

/-- Helper: `dedupFirst` yields the empty list only on the empty list. -/
theorem dedupFirst_eq_nil_iff (l : List FsPath) : dedupFirst l = [] ↔ l = [] := by
  cases l <;> simp [dedupFirst]

/-- Helper: a directory with a listing is seen by the existence check. -/
theorem fsExists_of_readDir_ne_nil {fs : Fs} {d : FsPath} (h : readDir fs d ≠ []) :
    fsExists fs d = true := by
  rw [readDir, Ne, dedupFirst_eq_nil_iff, List.filterMap_eq_nil_iff] at h
  push_neg at h
  obtain ⟨f, hf, hne⟩ := h
  rw [fsExists, List.any_eq_true]
  refine ⟨f, hf, ?_⟩
  by_cases hp : d.isPrefixOf f.path ∧ d.length < f.path.length
  · exact hp.1
  · rw [if_neg hp] at hne
    exact absurd rfl hne

/-- Helper: membership after a recursive delete. -/
theorem mem_fsUnlinkOp {fs : Fs} {p : FsPath} {f : FsFile} (h : f ∈ fsUnlinkOp fs p) :
    f ∈ fs ∧ p.isPrefixOf f.path = false := by
  rw [fsUnlinkOp, List.mem_filter] at h
  exact ⟨h.1, by simpa using h.2⟩

/-- Helper: membership after a file write. -/
theorem mem_fsWrite {fs : Fs} {p : FsPath} {c : FileContent} {f : FsFile}
    (h : f ∈ fsWrite fs p c) : f = ⟨p, c⟩ ∨ f ∈ fs := by
  rw [fsWrite, List.mem_cons] at h
  rcases h with h | h
  · exact Or.inl h
  · exact Or.inr (List.mem_filter.mp h).1

/-- Helper: membership after an unzip extraction. -/
theorem mem_fsExtract {fs : Fs} {dest : FsPath} {es : List (FsPath × FileContent)}
    {f : FsFile} (h : f ∈ fsExtract fs dest es) :
    (∃ e ∈ es, f = ⟨dest ++ e.1, e.2⟩) ∨ f ∈ fs := by
  rw [fsExtract, List.mem_append] at h
  rcases h with h | h
  · rw [List.mem_map] at h
    obtain ⟨e, he, hfe⟩ := h
    exact Or.inl ⟨e, he, hfe.symm⟩
  · exact Or.inr h

/-- Helper: a deleted path no longer exists. -/
theorem fsExists_fsUnlinkOp_self (fs : Fs) (p : FsPath) :
    fsExists (fsUnlinkOp fs p) p = false := by
  rw [fsExists, List.any_eq_false]
  intro f hf
  exact Bool.eq_false_iff.mp (mem_fsUnlinkOp hf).2

/-- Helper: under a non-existing directory there are no files. -/
theorem not_prefix_of_not_fsExists {fs : Fs} {d : FsPath} (h : fsExists fs d = false)
    {f : FsFile} (hf : f ∈ fs) : d.isPrefixOf f.path = false := by
  rw [fsExists, List.any_eq_false] at h
  exact Bool.eq_false_iff.mpr (h f hf)

/-- Helper: the editor directory is never a prefix of the zip download path
(they differ already at the second segment depth). -/
theorem editorDir_not_prefixOf_downloadPath (env : OfflineEnv) (pkg : PackageInfo) :
    (editorDirOf env pkg).isPrefixOf (downloadPathOf env pkg) = false := by
  simp [editorDirOf, downloadPathOf, List.isPrefixOf]

/-- Helper: a list is a prefix of itself extended. -/
theorem isPrefixOf_append_self (l t : List String) : l.isPrefixOf (l ++ t) = true := by
  induction l with
  | nil => simp [List.isPrefixOf]
  | cons a l ih => simp [List.isPrefixOf, ih]

/-- Helper: with an absent or empty version directory the download branch is
taken, and the run is the try block bracketed by the lifecycle events. -/
theorem getOfflineEditorUrl_download_run (env : OfflineEnv) (pkg : PackageInfo) (fs0 : Fs)
    (hempty : readDir fs0 (versionDirOf env pkg) = []) :
    getOfflineEditorUrl env pkg false fs0 =
      ((match (downloadAndUnpack env fs0 (editorDirOf env pkg) (versionDirOf env pkg)
            (downloadPathOf env pkg) pkg.download_url).1 with
        | .error e => .error e
        | .ok _ =>
          resolveMainFile
            (downloadAndUnpack env fs0 (editorDirOf env pkg) (versionDirOf env pkg)
              (downloadPathOf env pkg) pkg.download_url).2.1 (versionDirOf env pkg)),
       (downloadAndUnpack env fs0 (editorDirOf env pkg) (versionDirOf env pkg)
         (downloadPathOf env pkg) pkg.download_url).2.1,
       [Ev.checkUpdate, Ev.setDownloading true, Ev.downloadEditorStart] ++
         (downloadAndUnpack env fs0 (editorDirOf env pkg) (versionDirOf env pkg)
           (downloadPathOf env pkg) pkg.download_url).2.2 ++
         [Ev.downloadEditorEnd, Ev.setDownloading false]) := by
  rcases hdu : downloadAndUnpack env fs0 (editorDirOf env pkg) (versionDirOf env pkg)
      (downloadPathOf env pkg) pkg.download_url with ⟨res, fs1, tr⟩
  rw [getOfflineEditorUrl, hdu]
  simp only [hempty, List.length_nil, Nat.zero_eq, beq_self_eq_true, Bool.or_true,
    Bool.not_false, Bool.true_and, if_true]
  cases res <;> simp

/-- Helper: the try block emits no lifecycle events of its own. -/
theorem downloadAndUnpack_no_lifecycle (env : OfflineEnv) (fs : Fs)
    (ed vd dp : FsPath) (url : String) :
    ((downloadAndUnpack env fs ed vd dp url).2.2.count Ev.downloadEditorStart = 0) ∧
    ((downloadAndUnpack env fs ed vd dp url).2.2.count Ev.downloadEditorEnd = 0) ∧
    ((downloadAndUnpack env fs ed vd dp url).2.2.count (Ev.setDownloading false) = 0) := by
  cases hed : fsExists fs ed <;> cases hdel : env.unlinkFails <;>
    rcases hfa : env.fetchArchive with u | c <;>
      first
        | (cases huz : env.unzipFails <;> rcases c with es | o | s <;>
            simp [downloadAndUnpack, hed, hdel, hfa, huz, List.count_cons, List.count_nil,
              List.count_append])
        | simp [downloadAndUnpack, hed, hdel, hfa, List.count_cons, List.count_nil,
            List.count_append]

/-- C4: with a populated, non-empty version directory no download and no
unpack happens, the filesystem is unchanged, the result is computed directly
from the existing contents, and a repeated call returns the same result
(idempotence). -/
theorem C4_populated_idempotent (env : OfflineEnv) (pkg : PackageInfo)
    (downloading : Bool) (fs0 : Fs)
    (hpop : readDir fs0 (versionDirOf env pkg) ≠ []) :
    getOfflineEditorUrl env pkg downloading fs0 =
      (resolveMainFile fs0 (versionDirOf env pkg), fs0, [Ev.checkUpdate]) ∧
    (∀ e ∈ (getOfflineEditorUrl env pkg downloading fs0).2.2,
        (∀ u p, e ≠ Ev.netDownload u p) ∧ ∀ p q, e ≠ Ev.unzipTo p q) ∧
    getOfflineEditorUrl env pkg downloading
        (getOfflineEditorUrl env pkg downloading fs0).2.1 =
      getOfflineEditorUrl env pkg downloading fs0 := by
  have hex := fsExists_of_readDir_ne_nil hpop
  have hmain : getOfflineEditorUrl env pkg downloading fs0 =
      (resolveMainFile fs0 (versionDirOf env pkg), fs0, [Ev.checkUpdate]) := by
    rw [getOfflineEditorUrl]
    simp [hex, hpop]
  refine ⟨hmain, ?_, ?_⟩
  · rw [hmain]
    intro e he
    simp only [List.mem_singleton] at he
    subst he
    exact ⟨fun u p => by simp, fun p q => by simp⟩
  · have hfs : (getOfflineEditorUrl env pkg downloading fs0).2.1 = fs0 := by rw [hmain]
    rw [hfs]

/-- C5: when the version directory is populated and its first entry's
`package.json` parses with no `sn.main` override, resolution targets
`index.html` (a `file://` url to it when present); and for any manifest,
whenever the resolved main file does not exist on disk, resolution returns the
empty string (triggering remote fallback) rather than an error. -/
theorem C5_default_main_and_fallback (env : OfflineEnv) (pkg : PackageInfo)
    (downloading : Bool) (fs0 : Fs) (pkgDir : FsPath) (rest : List FsPath)
    (hdir : readDir fs0 (versionDirOf env pkg) = pkgDir :: rest) :
    (readFile fs0 (pkgDir ++ ["package.json"]) = some (.manifest none) →
        (getOfflineEditorUrl env pkg downloading fs0).1 =
          (if fsExists fs0 (pkgDir ++ ["index.html"]) = true then
            Except.ok ("file://" ++ pathString (pkgDir ++ ["index.html"]))
          else Except.ok "")) ∧
    (∀ snMain, readFile fs0 (pkgDir ++ ["package.json"]) = some (.manifest snMain) →
        fsExists fs0 (pkgDir ++ [mainFileNameOf snMain]) = false →
        (getOfflineEditorUrl env pkg downloading fs0).1 = Except.ok "") := by
  have hpop : readDir fs0 (versionDirOf env pkg) ≠ [] := by rw [hdir]; simp
  have hex := fsExists_of_readDir_ne_nil hpop
  have hres : (getOfflineEditorUrl env pkg downloading fs0).1 =
      resolveMainFile fs0 (versionDirOf env pkg) := by
    rw [getOfflineEditorUrl]
    simp [hex, hpop]
  constructor
  · intro hman
    rw [hres, resolveMainFile, hdir]
    simp [hman, parseManifest, mainFileNameOf]
  · intro snMain hman hmiss
    rw [hres, resolveMainFile, hdir]
    simp [hman, parseManifest, hmiss]

/-- C3: entering offline resolution with an absent or empty version directory
and a clear downloading flag: when the per-identifier editor directory exists,
its deletion is the first filesystem action, before any download; every
retained file under the editor directory afterwards lies under the fresh
version directory (at most one version retained); and after a successful
download and unpack the temporary archive no longer exists and its deletion
follows the unpack in the trace. -/
theorem C3_stale_eviction_and_zip_cleanup (env : OfflineEnv) (pkg : PackageInfo) (fs0 : Fs)
    (hempty : readDir fs0 (versionDirOf env pkg) = [])
    (hdel : env.unlinkFails = false) :
    (fsExists fs0 (editorDirOf env pkg) = true →
      ∃ tl, (getOfflineEditorUrl env pkg false fs0).2.2 =
        [Ev.checkUpdate, Ev.setDownloading true, Ev.downloadEditorStart,
          Ev.fsDelete (editorDirOf env pkg)] ++ tl) ∧
    (∀ f ∈ (getOfflineEditorUrl env pkg false fs0).2.1,
      (editorDirOf env pkg).isPrefixOf f.path = true →
        (versionDirOf env pkg).isPrefixOf f.path = true) ∧
    (∀ entries, env.fetchArchive = .ok (.archive entries) → env.unzipFails = false →
      fsExists (getOfflineEditorUrl env pkg false fs0).2.1 (downloadPathOf env pkg) = false ∧
      ∃ pre, (getOfflineEditorUrl env pkg false fs0).2.2 =
        pre ++ [Ev.unzipTo (downloadPathOf env pkg) (versionDirOf env pkg),
          Ev.fsDelete (downloadPathOf env pkg), Ev.downloadEditorEnd,
          Ev.setDownloading false]) := by
  have hrun := getOfflineEditorUrl_download_run env pkg fs0 hempty
  have hclean : ∀ f ∈ (downloadAndUnpack env fs0 (editorDirOf env pkg)
      (versionDirOf env pkg) (downloadPathOf env pkg) pkg.download_url).2.1,
      (editorDirOf env pkg).isPrefixOf f.path = true →
        (versionDirOf env pkg).isPrefixOf f.path = true := by
    have hfs1 : ∀ fs1, (fs1 = fsUnlinkOp fs0 (editorDirOf env pkg) ∨
        (fs1 = fs0 ∧ fsExists fs0 (editorDirOf env pkg) = false)) →
        ∀ f ∈ fs1, (editorDirOf env pkg).isPrefixOf f.path = true →
          (versionDirOf env pkg).isPrefixOf f.path = true := by
      rintro fs1 (rfl | ⟨rfl, hne⟩) f hf hp
      · rw [(mem_fsUnlinkOp hf).2] at hp
        exact absurd hp (by simp)
      · rw [not_prefix_of_not_fsExists hne hf] at hp
        exact absurd hp (by simp)
    have hwrite : ∀ fs1 c, (∀ f ∈ fs1, (editorDirOf env pkg).isPrefixOf f.path = true →
        (versionDirOf env pkg).isPrefixOf f.path = true) →
        ∀ f ∈ fsWrite fs1 (downloadPathOf env pkg) c,
          (editorDirOf env pkg).isPrefixOf f.path = true →
            (versionDirOf env pkg).isPrefixOf f.path = true := by
      intro fs1 c h1 f hf hp
      rcases mem_fsWrite hf with rfl | hf1
      · rw [editorDir_not_prefixOf_downloadPath] at hp
        exact absurd hp (by simp)
      · exact h1 f hf1 hp
    cases hed : fsExists fs0 (editorDirOf env pkg) <;>
      cases huz : env.unzipFails <;>
        rcases hfa : env.fetchArchive with u | c
    all_goals
      try rcases c with es | o | s
    all_goals
      simp only [downloadAndUnpack, hed, hdel, hfa, huz, Bool.false_eq_true, if_false,
        if_true]
    all_goals
      intro f hf hp
    all_goals
      first
        | (rcases mem_fsUnlinkOp hf with ⟨hf2, -⟩
           rcases mem_fsExtract hf2 with ⟨e, he, rfl⟩ | hf3
           · exact isPrefixOf_append_self (versionDirOf env pkg) e.1
           · exact hwrite _ _ (hfs1 _ (by simp [hed])) f hf3 hp)
        | exact hwrite _ _ (hfs1 _ (by simp [hed])) f hf hp
        | exact hfs1 _ (by simp [hed]) f hf hp
  refine ⟨?_, ?_, ?_⟩
  · intro hed
    rw [hrun]
    cases huz : env.unzipFails <;> rcases hfa : env.fetchArchive with u | c
    · exact ⟨[Ev.netDownload pkg.download_url (downloadPathOf env pkg),
        Ev.downloadEditorEnd, Ev.setDownloading false],
        by simp [downloadAndUnpack, hed, hdel, hfa]⟩
    · rcases c with es | o | s
      · exact ⟨[Ev.netDownload pkg.download_url (downloadPathOf env pkg),
          Ev.unzipTo (downloadPathOf env pkg) (versionDirOf env pkg),
          Ev.fsDelete (downloadPathOf env pkg),
          Ev.downloadEditorEnd, Ev.setDownloading false],
          by simp [downloadAndUnpack, hed, hdel, hfa, huz]⟩
      · exact ⟨[Ev.netDownload pkg.download_url (downloadPathOf env pkg),
          Ev.unzipTo (downloadPathOf env pkg) (versionDirOf env pkg),
          Ev.downloadEditorEnd, Ev.setDownloading false],
          by simp [downloadAndUnpack, hed, hdel, hfa, huz]⟩
      · exact ⟨[Ev.netDownload pkg.download_url (downloadPathOf env pkg),
          Ev.unzipTo (downloadPathOf env pkg) (versionDirOf env pkg),
          Ev.downloadEditorEnd, Ev.setDownloading false],
          by simp [downloadAndUnpack, hed, hdel, hfa, huz]⟩
    · exact ⟨[Ev.netDownload pkg.download_url (downloadPathOf env pkg),
        Ev.downloadEditorEnd, Ev.setDownloading false],
        by simp [downloadAndUnpack, hed, hdel, hfa]⟩
    · exact ⟨[Ev.netDownload pkg.download_url (downloadPathOf env pkg),
        Ev.unzipTo (downloadPathOf env pkg) (versionDirOf env pkg),
        Ev.downloadEditorEnd, Ev.setDownloading false],
        by simp [downloadAndUnpack, hed, hdel, hfa, huz]⟩
  · rw [hrun]
    exact hclean
  · intro entries hfa huz
    rw [hrun]
    refine ⟨?_, ?_⟩
    · cases hed : fsExists fs0 (editorDirOf env pkg) <;>
        simp [downloadAndUnpack, hed, hdel, hfa, huz, fsExists_fsUnlinkOp_self]
    · cases hed : fsExists fs0 (editorDirOf env pkg)
      · exact ⟨[Ev.checkUpdate, Ev.setDownloading true, Ev.downloadEditorStart,
          Ev.netDownload pkg.download_url (downloadPathOf env pkg)],
          by simp [downloadAndUnpack, hed, hdel, hfa, huz]⟩
      · exact ⟨[Ev.checkUpdate, Ev.setDownloading true, Ev.downloadEditorStart,
          Ev.fsDelete (editorDirOf env pkg),
          Ev.netDownload pkg.download_url (downloadPathOf env pkg)],
          by simp [downloadAndUnpack, hed, hdel, hfa, huz]⟩

/-- C10: whenever the download branch is entered (clear downloading flag,
absent or empty version directory), `onDownloadEditorStart` fires exactly
once, and the `finally` block fires `onDownloadEditorEnd` and resets the
downloading flag exactly once on every outcome — success or a throw in the
delete, download or unzip step — and a thrown error still propagates as the
overall outcome after the cleanup. -/
theorem C10_download_finally (env : OfflineEnv) (pkg : PackageInfo) (fs0 : Fs)
    (hempty : readDir fs0 (versionDirOf env pkg) = []) :
    ((getOfflineEditorUrl env pkg false fs0).2.2.count Ev.downloadEditorStart = 1) ∧
    ((getOfflineEditorUrl env pkg false fs0).2.2.count Ev.downloadEditorEnd = 1) ∧
    ((getOfflineEditorUrl env pkg false fs0).2.2.count (Ev.setDownloading false) = 1) ∧
    (∀ e, (downloadAndUnpack env fs0 (editorDirOf env pkg) (versionDirOf env pkg)
        (downloadPathOf env pkg) pkg.download_url).1 = Except.error e →
      (getOfflineEditorUrl env pkg false fs0).1 = Except.error e) := by
  have hrun := getOfflineEditorUrl_download_run env pkg fs0 hempty
  have hnl := downloadAndUnpack_no_lifecycle env fs0 (editorDirOf env pkg)
    (versionDirOf env pkg) (downloadPathOf env pkg) pkg.download_url
  refine ⟨?_, ?_, ?_, ?_⟩
  · rw [hrun]
    simp [List.count_append, List.count_cons, hnl.1]
  · rw [hrun]
    simp [List.count_append, List.count_cons, hnl.2.1]
  · rw [hrun]
    simp [List.count_append, List.count_cons, hnl.2.2]
  · intro e he
    rw [hrun]
    simp only [he]

/-- Fixture: a demo component descriptor. -/
def pkgDemo : PackageInfo :=
  ⟨"org.ex.ed", "1.0.0", "https://ex/d.zip", none⟩

/-- Fixture: environment with a populated local copy (no download needed). -/
def envPop : OfflineEnv :=
  ⟨.ios, "/ext", "/docs", .error (), false, false⟩

/-- Fixture: the unpacked package directory of the populated copy. -/
def pkgDirPop : FsPath := ["/docs", "editors", "org.ex.ed", "1.0.0", "pkg"]

/-- Fixture: a populated version directory with a manifest without `sn.main`
and an `index.html`. -/
def fsPop : Fs :=
  [⟨pkgDirPop ++ ["package.json"], .manifest none⟩,
   ⟨pkgDirPop ++ ["index.html"], .rawText "<html>"⟩]

/-- Fixture: archive entries of a downloadable editor package. -/
def entriesDemo : List (FsPath × FileContent) :=
  [(["pkg", "package.json"], .manifest none),
   (["pkg", "index.html"], .rawText "<html>")]

/-- Fixture: environment whose download yields the demo archive. -/
def envOk : OfflineEnv :=
  ⟨.ios, "/ext", "/docs", .ok (.archive entriesDemo), false, false⟩

/-- Fixture: a stale filesystem holding only an older unpacked version. -/
def fsStale : Fs :=
  [⟨["/docs", "editors", "org.ex.ed", "0.9.0", "pkg", "index.html"], .rawText "old"⟩]

/-- Fixture: environment whose download fails. -/
def envFail : OfflineEnv :=
  ⟨.android, "/ext", "/docs", .error (), false, false⟩

/-- C4 witness: on the populated fixture the call reads the existing contents,
changes nothing and emits only the update-check event. -/
theorem C4_populated_idempotent_witness :
    getOfflineEditorUrl envPop pkgDemo false fsPop =
      (resolveMainFile fsPop (versionDirOf envPop pkgDemo), fsPop, [Ev.checkUpdate]) :=
  (C4_populated_idempotent envPop pkgDemo false fsPop (by decide)).1

/-- C5 witness: on the populated fixture resolution targets `index.html`. -/
theorem C5_default_main_and_fallback_witness :
    (getOfflineEditorUrl envPop pkgDemo false fsPop).1 =
      (if fsExists fsPop (pkgDirPop ++ ["index.html"]) = true then
        Except.ok ("file://" ++ pathString (pkgDirPop ++ ["index.html"]))
      else Except.ok "") :=
  (C5_default_main_and_fallback envPop pkgDemo false fsPop pkgDirPop [] (by decide)).1 rfl

/-- C3 witness: on the stale fixture the old version directory is deleted
before the download, and after the successful unpack the zip is gone. -/
theorem C3_stale_eviction_and_zip_cleanup_witness :
    (∃ tl, (getOfflineEditorUrl envOk pkgDemo false fsStale).2.2 =
      [Ev.checkUpdate, Ev.setDownloading true, Ev.downloadEditorStart,
        Ev.fsDelete (editorDirOf envOk pkgDemo)] ++ tl) ∧
    fsExists (getOfflineEditorUrl envOk pkgDemo false fsStale).2.1
      (downloadPathOf envOk pkgDemo) = false :=
  ⟨(C3_stale_eviction_and_zip_cleanup envOk pkgDemo fsStale (by decide) rfl).1 (by decide),
   ((C3_stale_eviction_and_zip_cleanup envOk pkgDemo fsStale (by decide) rfl).2.2
      entriesDemo rfl rfl).1⟩

/-- C10 witness: a failing download still fires the cleanup exactly once and
the error propagates. -/
theorem C10_download_finally_witness :
    ((getOfflineEditorUrl envFail pkgDemo false []).2.2.count Ev.downloadEditorEnd = 1) ∧
    (getOfflineEditorUrl envFail pkgDemo false []).1 = Except.error .downloadFailed :=
  ⟨(C10_download_finally envFail pkgDemo [] rfl).2.1,
   (C10_download_finally envFail pkgDemo [] rfl).2.2.2 .downloadFailed rfl⟩

/-- C1 counterexample: on Android with an offline editor loaded, the `url`
state variable is empty while the loaded editor url is the offline file url,
so a navigation request targeting exactly the currently loaded editor URL is
still redirected to the external opener, contrary to the claim. -/
theorem C1_counterexample :
    redirected .android "" ⟨"file:///d/editors/demo/1.0.0/pkg/index.html", "other"⟩ = true ∧
    specRedirected .android
        (loadedEditorUrl "file:///d/editors/demo/1.0.0/pkg/index.html" "")
        ⟨"file:///d/editors/demo/1.0.0/pkg/index.html", "other"⟩ = false := by
  decide

/-- C1 (amended): a delivered navigation request is redirected to the external
url opener exactly when, on iOS, its navigation type is a user click, or, on
Android, its target URL differs from the `url` state variable (the remote
editor url when set, empty when an offline editor is loaded); on iOS the
initial editor load is never intercepted since its navigation type is not a
click, and on Android the initial load request is not delivered to the handler
at all. -/
theorem C1_nav_interception_amended (os : Platform) (urlState : String) (req : NavRequest) :
    (redirected os urlState req = true ↔
      (os = .ios ∧ req.navigationType = "click") ∨
        (os = .android ∧ req.url ≠ urlState)) ∧
    (os = .ios → req.navigationType ≠ "click" → redirected os urlState req = false) ∧
    handlerReceivesRequest .android true = false := by
  refine ⟨?_, ?_, rfl⟩
  · cases os <;> simp [redirected, onShouldStartLoadWithRequest]
  · rintro rfl h
    simp [redirected, onShouldStartLoadWithRequest, h]

/-- C1 witness: a differing-URL request on Android is redirected, a non-click
request for the loaded remote editor url on iOS is not. -/
theorem C1_nav_interception_amended_witness :
    redirected .android "https://remote.ed/index.html" ⟨"https://elsewhere.ex", "other"⟩ = true ∧
    redirected .ios "https://remote.ed/index.html"
        ⟨"https://remote.ed/index.html", "other"⟩ = false :=
  ⟨(C1_nav_interception_amended .android "https://remote.ed/index.html"
      ⟨"https://elsewhere.ex", "other"⟩).1.mpr (Or.inr ⟨rfl, by decide⟩),
   (C1_nav_interception_amended .ios "https://remote.ed/index.html"
      ⟨"https://remote.ed/index.html", "other"⟩).2.1 rfl (by decide)⟩

/-- C2 counterexample: with a `latest_url`, a fetched manifest whose version
differs from the current one, but an application that is not started, the code
performs no persistence mutation, contrary to the claim's "exactly one". -/
theorem C2_counterexample :
    (checkForComponentUpdate false
        (fun _ => .ok (some ⟨"org.ex.editor", "2.0.0", "https://ex/d2.zip", some "https://ex/latest"⟩))
        ⟨"uuid-1", ⟨"org.ex.editor", "1.0.0", "https://ex/d.zip", some "https://ex/latest"⟩⟩).countP
      isMutation = 0 ∧
    ("2.0.0" : String) ≠ "1.0.0" := by
  decide

/-- C2 (amended): with no (or an empty) `latest_url` the update check performs
no effect at all (no network call, no mutation); when the fetched manifest's
version equals the current one no persistence mutation occurs; when the
fetched version differs AND the application is started, the effects are
exactly one network fetch followed by exactly one `changeAndSaveItem` writing
the fetched manifest onto the descriptor's package-info field. -/
theorem C2_update_check_amended (isStarted : Bool)
    (fetchJson : String → Except Unit (Option PackageInfo)) (comp : SNComponent) :
    ((comp.package_info.latest_url = none ∨ comp.package_info.latest_url = some "") →
        checkForComponentUpdate isStarted fetchJson comp = []) ∧
    (∀ url fetched, comp.package_info.latest_url = some url →
        fetchJson url = .ok (some fetched) →
        fetched.version = comp.package_info.version →
        (checkForComponentUpdate isStarted fetchJson comp).countP isMutation = 0) ∧
    (∀ url fetched, comp.package_info.latest_url = some url → url ≠ "" →
        fetchJson url = .ok (some fetched) →
        fetched.version ≠ comp.package_info.version →
        isStarted = true →
        checkForComponentUpdate isStarted fetchJson comp =
          [.networkFetch url, .changeAndSaveItem comp.uuid fetched]) := by
  refine ⟨?_, ?_, ?_⟩
  · rintro (h | h) <;> simp [checkForComponentUpdate, h]
  · intro url fetched hurl hfetch hver
    by_cases hu : url = ""
    · subst hu
      simp [checkForComponentUpdate, hurl]
    · simp [checkForComponentUpdate, hurl, hu, hfetch, hver, isMutation]
  · intro url fetched hurl hu hfetch hver hst
    simp [checkForComponentUpdate, hurl, hu, hfetch, hver, hst]

/-- C2 witness: started application, differing fetched version, exactly one
fetch and one mutation with the fetched manifest. -/
theorem C2_update_check_amended_witness :
    checkForComponentUpdate true
        (fun _ => .ok (some ⟨"org.ex.editor", "2.0.0", "https://ex/d2.zip", some "https://ex/latest"⟩))
        ⟨"uuid-1", ⟨"org.ex.editor", "1.0.0", "https://ex/d.zip", some "https://ex/latest"⟩⟩ =
      [.networkFetch "https://ex/latest",
       .changeAndSaveItem "uuid-1"
         ⟨"org.ex.editor", "2.0.0", "https://ex/d2.zip", some "https://ex/latest"⟩] :=
  (C2_update_check_amended true _ _).2.2 "https://ex/latest" _ rfl (by decide) rfl (by decide) rfl

/-- C6: when the component manager returned a canonical URL and offline
resolution threw, a mounted view either signals a load error (offline-only
mode) or falls back to the remote canonical URL, and these are the only two
outcomes of an offline-preparation failure. -/
theorem C6_offline_failure_fallback (u : String) (e : OfflineError) (offlineOnly : Bool) :
    (offlineOnly = true →
        setEditorUrl (some u) (.error e) offlineOnly true = .signalLoadError) ∧
    (offlineOnly = false →
        setEditorUrl (some u) (.error e) offlineOnly true = .setRemoteUrl u) ∧
    (setEditorUrl (some u) (.error e) offlineOnly true = .signalLoadError ∨
      setEditorUrl (some u) (.error e) offlineOnly true = .setRemoteUrl u) := by
  cases offlineOnly <;> simp [setEditorUrl]

/-- C6 witness: both failure outcomes at concrete inputs. -/
theorem C6_offline_failure_fallback_witness :
    setEditorUrl (some "https://remote.ed") (.error .downloadFailed) true true =
      .signalLoadError ∧
    setEditorUrl (some "https://remote.ed") (.error .downloadFailed) false true =
      .setRemoteUrl "https://remote.ed" :=
  ⟨(C6_offline_failure_fallback "https://remote.ed" .downloadFailed true).1 rfl,
   (C6_offline_failure_fallback "https://remote.ed" .downloadFailed false).2.1 rfl⟩

/-- C7: for content height `c = t + l` and screen height `H > 0`, the snap
point is `c` when `0 < c < 0.85 * H`, is `0.85 * H` when `c ≥ 0.85 * H`, and
is the placeholder `1` when `c = 0`. -/
theorem C7_snap_points (t l H c : ℚ) (hc : c = contentHeightOf t l) (hH : 0 < H) :
    (0 < c → c < 85 / 100 * H → snapPoints H c = [c]) ∧
    (85 / 100 * H ≤ c → snapPoints H c = [85 / 100 * H]) ∧
    (c = 0 → snapPoints H c = [1]) := by
  refine ⟨?_, ?_, ?_⟩
  · intro h0 hlt
    have hne : c ≠ 0 := ne_of_gt h0
    simp [snapPoints, hne, hlt]
  · intro hge
    have hml : 0 < 85 / 100 * H := mul_pos (by norm_num) hH
    have hne : c ≠ 0 := ne_of_gt (lt_of_lt_of_le hml hge)
    have hnlt : ¬c < 85 / 100 * H := not_lt.mpr hge
    simp [snapPoints, hne, hnlt]
  · intro h0
    simp [snapPoints, h0]

/-- C7 witness: content height 400 with screen height 800 snaps to 400,
content height 900 snaps to the 680 cap, content height 0 snaps to 1. -/
theorem C7_snap_points_witness :
    snapPoints 800 400 = [400] ∧ snapPoints 800 900 = [680] ∧ snapPoints 800 0 = [1] := by
  have h680 : (85 : ℚ) / 100 * 800 = 680 := by norm_num
  refine ⟨?_, ?_, ?_⟩
  · exact (C7_snap_points 0 400 800 400 (by norm_num [contentHeightOf]) (by norm_num)).1
      (by norm_num) (by rw [h680]; norm_num)
  · have h := (C7_snap_points 100 800 800 900 (by norm_num [contentHeightOf])
      (by norm_num)).2.1 (by rw [h680]; norm_num)
    rw [h, h680]
  · exact (C7_snap_points 0 0 800 0 (by norm_num [contentHeightOf]) (by norm_num)).2.2 rfl

/-- Animated section state of the bottom sheet: the section key, whether it
is expandable, and the current target of its animation value. -/
structure AnimatedSection where
  key : String
  expandable : Bool
  animationValue : ℚ
  deriving DecidableEq, Repr

/-- Embedding of `expandSection` (BottomSheet, lines 325-339): one parallel
animation targets value 1 for the expandable section with the selected key and
0 for every other expandable section; non-expandable sections are untouched. -/
def expandSection (sections : List AnimatedSection) (sectionKey : String) :
    List AnimatedSection :=
  sections.map fun s =>
    if s.expandable then
      { s with animationValue := if sectionKey == s.key then 1 else 0 }
    else s

/-- Count of expandable sections whose animation value is targeted at 1. -/
def expandedCount (sections : List AnimatedSection) : ℕ :=
  sections.countP fun s => s.expandable && decide (s.animationValue = 1)

/-- Count of all sections whose animation value is targeted at 1. -/
def atOneCount (sections : List AnimatedSection) : ℕ :=
  sections.countP fun s => decide (s.animationValue = 1)

/-- Target state after a sequence of expand-section selections. -/
def reachTargets (sections : List AnimatedSection) (keys : List String) :
    List AnimatedSection :=
  keys.foldl expandSection sections

/-- Helper: selections do not change the section keys. -/
theorem keys_expandSection (ss : List AnimatedSection) (k : String) :
    (expandSection ss k).map (fun s => s.key) = ss.map fun s => s.key := by
  induction ss with
  | nil => rfl
  | cons s tl ih =>
    cases hbe : s.expandable <;> simp [expandSection, hbe] <;>
      simpa [expandSection] using ih

/-- Helper: selecting a key not among the section keys collapses every
expandable section. -/
theorem expandedCount_expandSection_zero (tl : List AnimatedSection) (k : String)
    (hk : k ∉ tl.map fun s => s.key) : expandedCount (expandSection tl k) = 0 := by
  rw [expandedCount, List.countP_eq_zero]
  intro s hs
  rw [expandSection, List.mem_map] at hs
  obtain ⟨b, hb, rfl⟩ := hs
  cases hbe : b.expandable
  · simp [hbe]
  · have hne : k ≠ b.key := fun h => hk (List.mem_map.mpr ⟨b, hb, h.symm⟩)
    simp [hbe, hne]

/-- Helper: after any selection on sections with pairwise distinct keys, at
most one expandable section is targeted at 1. -/
theorem expandedCount_expandSection_le_one (ss : List AnimatedSection) (k : String)
    (hnd : (ss.map fun s => s.key).Nodup) :
    expandedCount (expandSection ss k) ≤ 1 := by
  induction ss with
  | nil => simp [expandSection, expandedCount]
  | cons s tl ih =>
    rw [List.map_cons, List.nodup_cons] at hnd
    obtain ⟨hk, htl⟩ := hnd
    have hcons : expandSection (s :: tl) k =
        (if s.expandable = true then
          { s with animationValue := if k == s.key then 1 else 0 } else s) ::
          expandSection tl k := by
      simp [expandSection]
    cases hbe : s.expandable
    · rw [expandedCount, hcons, List.countP_cons]
      simp only [hbe, Bool.false_eq_true, if_false, Bool.false_and, add_zero]
      exact ih htl
    · by_cases hke : k = s.key
      · have h0 := expandedCount_expandSection_zero tl k (by rw [hke]; exact hk)
        rw [expandedCount] at h0
        rw [expandedCount, hcons, List.countP_cons, h0]
        split <;> simp [hbe, hke]
      · have hbeq : (k == s.key) = false := by simp [hke]
        rw [expandedCount, hcons, List.countP_cons]
        simp only [hbe, if_true, hbeq, Bool.false_eq_true, if_false]
        have hp : (decide ((0 : ℚ) = 1)) = false := by simp
        simp only [hp, Bool.and_false, if_false, add_zero]
        exact ih htl

/-- Helper: selections never touch non-expandable sections, so those stay
collapsed. -/
theorem nonexpandable_zero_expandSection (ss : List AnimatedSection) (k : String)
    (h : ∀ s ∈ ss, s.expandable = false → s.animationValue = 0) :
    ∀ s ∈ expandSection ss k, s.expandable = false → s.animationValue = 0 := by
  intro s hs
  rw [expandSection, List.mem_map] at hs
  obtain ⟨b, hb, rfl⟩ := hs
  cases hbe : b.expandable
  · simpa [hbe] using h b hb
  · simp [hbe]

/-- Helper: if non-expandable sections are collapsed, every section at 1 is
expandable, so the overall at-1 count is bounded by the expandable one. -/
theorem atOneCount_le_expandedCount (ss : List AnimatedSection)
    (h0 : ∀ s ∈ ss, s.expandable = false → s.animationValue = 0) :
    atOneCount ss ≤ expandedCount ss := by
  rw [atOneCount, expandedCount]
  apply List.countP_mono_left
  intro s hs hp
  rw [decide_eq_true_eq] at hp
  cases hbe : s.expandable
  · rw [h0 s hs hbe] at hp
    exact absurd hp (by norm_num)
  · simp [hp]

/-- Helper: reachability invariant — starting from distinct keys, collapsed
non-expandables and at most one expanded section, every selection sequence
keeps at most one section (of any kind) targeted at 1. -/
theorem atOneCount_reachTargets_le_one (ks : List String) (ss : List AnimatedSection)
    (hnd : (ss.map fun s => s.key).Nodup)
    (hne : ∀ s ∈ ss, s.expandable = false → s.animationValue = 0)
    (hcnt : expandedCount ss ≤ 1) :
    atOneCount (reachTargets ss ks) ≤ 1 := by
  induction ks generalizing ss with
  | nil => exact le_trans (atOneCount_le_expandedCount ss hne) hcnt
  | cons k ks ih =>
    exact ih (expandSection ss k)
      (by rw [keys_expandSection]; exact hnd)
      (nonexpandable_zero_expandSection ss k hne)
      (expandedCount_expandSection_le_one ss k hnd)

/-- C8: with pairwise distinct section keys and an all-collapsed initial
state, selecting the expandable section with key `k` targets its animation
value to 1 and every other expandable section's value to 0; afterwards at most
one expandable section is targeted at 1; and no sequence of selections reaches
a target state in which two sections' values are both at 1. -/
theorem C8_single_expanded_invariant (ss : List AnimatedSection) (k : String)
    (hnd : (ss.map fun s => s.key).Nodup)
    (hzero : ∀ s ∈ ss, s.animationValue = 0) :
    (∀ s ∈ expandSection ss k, s.expandable = true →
        s.animationValue = if s.key = k then 1 else 0) ∧
    expandedCount (expandSection ss k) ≤ 1 ∧
    ∀ ks, atOneCount (reachTargets ss ks) ≤ 1 := by
  refine ⟨?_, expandedCount_expandSection_le_one ss k hnd, ?_⟩
  · intro s hs hexp
    rw [expandSection, List.mem_map] at hs
    obtain ⟨b, hb, rfl⟩ := hs
    cases hbe : b.expandable
    · rw [hbe] at hexp
      simp only [Bool.false_eq_true, if_false] at hexp
      rw [hexp] at hbe
      exact absurd hbe (by simp)
    · simp only [hbe, if_true]
      by_cases h : k = b.key
      · simp [h]
      · have h2 : b.key ≠ k := fun hh => h hh.symm
        simp [h, h2]
  · have hcnt : expandedCount ss = 0 := by
      rw [expandedCount, List.countP_eq_zero]
      intro s hs
      simp [hzero s hs]
    exact fun ks => atOneCount_reachTargets_le_one ks ss hnd
      (fun s hs _ => hzero s hs) (by rw [hcnt]; exact Nat.zero_le 1)

/-- C8 witness: two expandable collapsed sections; selecting key "b" targets
it to 1 and "a" to 0, with at most one section expanded. -/
theorem C8_single_expanded_invariant_witness :
    expandedCount (expandSection [⟨"a", true, 0⟩, ⟨"b", true, 0⟩] "b") ≤ 1 ∧
    (∀ s ∈ expandSection [⟨"a", true, 0⟩, ⟨"b", true, 0⟩] "b", s.expandable = true →
        s.animationValue = if s.key = "b" then 1 else 0) :=
  ⟨(C8_single_expanded_invariant [⟨"a", true, 0⟩, ⟨"b", true, 0⟩] "b"
      (by decide) (by decide)).2.1,
   (C8_single_expanded_invariant [⟨"a", true, 0⟩, ⟨"b", true, 0⟩] "b"
      (by decide) (by decide)).1⟩

/-- C9: one press runs the callback exactly once when present, then dismisses
the sheet exactly once when flagged, in that order; with neither a callback
nor the dismiss flag a press has no effect. -/
theorem C9_action_press (a : BottomSheetAction) :
    ((actionItemOnPress a).count .runCallback = if a.hasCallback then 1 else 0) ∧
    ((actionItemOnPress a).count .dismissSheet = if a.dismissSheetOnPress then 1 else 0) ∧
    (a.hasCallback = true → a.dismissSheetOnPress = true →
        actionItemOnPress a = [.runCallback, .dismissSheet]) ∧
    (a.hasCallback = false → a.dismissSheetOnPress = false →
        actionItemOnPress a = []) := by
  obtain ⟨k, cb, dm⟩ := a
  cases cb <;> cases dm <;>
    simp [actionItemOnPress, List.count_cons, List.count_nil]

/-- C9 witness: an action with a callback and the dismiss flag runs the
callback then dismisses. -/
theorem C9_action_press_witness :
    actionItemOnPress ⟨"share", true, true⟩ = [.runCallback, .dismissSheet] :=
  (C9_action_press ⟨"share", true, true⟩).2.2.1 rfl rfl

end Mobile
